import Mathlib

/-!
Verification of the surf-governor rate-limiting middleware.

The middleware (`src/lib.rs`) wraps a keyed GCRA rate limiter (the
`governor` crate) behind a surf middleware `handle`. The limiter's
decision algorithm is not part of this repository's sources, so it is
modelled from the specification (§4.1): per-key theoretical arrival
time (TAT), `tau = replenish_interval * (burst_size - 1)`,
`allow_at = tat - tau`, admit iff `now >= allow_at`.

Time is measured in nanoseconds as `Nat`; `Nat` truncated subtraction
matches the algorithm's saturating subtraction.
-/

namespace SurfGovernor

/-- Outcome of a rate check: admit, or deny with a wait duration
(nanoseconds) that must elapse before the next admission. -/
inductive Decision where
  | allow : Decision
  | deny (wait : Nat) : Decision
deriving DecidableEq, Repr

/-- Modelled from the spec: a `Quota` pairs a maximum burst size with a
steady-state replenishment interval (nanoseconds per token). The
`governor` crate's `Quota` type is not under src/. -/
structure Quota where
  burst_size : Nat
  replenish_interval : Nat
deriving DecidableEq, Repr

/-- Per-key limiter state: each key maps to its stored theoretical
arrival time (TAT), `none` before the key's first observation. -/
def KeyStore : Type := String → Option Nat

/-- The store of a freshly constructed limiter: no key has state. -/
def emptyStore : KeyStore := fun _ => none

/-- Point update of a key store. -/
def updateStore (s : KeyStore) (key : String) (v : Nat) : KeyStore :=
  fun k => if k = key then some v else s k

/-- Modelled from the spec: the maximum credit of early arrivals,
`tau = replenish_interval * (burst_size - 1)`. -/
def tau (q : Quota) : Nat := q.replenish_interval * (q.burst_size - 1)

/-- Modelled from the spec: one GCRA check (the `governor` crate's
`check_key`, not under src/). If no prior state exists, `tat = now`.
`allow_at = tat - tau`. If `now >= allow_at`: admit and store
`max tat now + replenish_interval`; else deny with
`wait = allow_at - now`, leaving the store unchanged. -/
def check (q : Quota) (s : KeyStore) (key : String) (now : Nat) :
    Decision × KeyStore :=
  if (s key).getD now - tau q ≤ now then
    (Decision.allow,
      updateStore s key (max ((s key).getD now) now + q.replenish_interval))
  else
    (Decision.deny ((s key).getD now - tau q - now), s)

/-- `n` consecutive checks for the same key at the same instant:
the list of decisions and the final store. -/
def checkRepeat (q : Quota) (s : KeyStore) (key : String) (now : Nat) :
    Nat → List Decision × KeyStore
  | 0 => ([], s)
  | n + 1 =>
    let r := check q s key now
    let rest := checkRepeat q r.2 key now n
    (r.1 :: rest.1, rest.2)

/-- Run a history of checks (key, timestamp pairs), keeping only the
final store. -/
def runHistory (q : Quota) (s : KeyStore) : List (String × Nat) → KeyStore
  | [] => s
  | p :: rest => runHistory q (check q s p.1 p.2).2 rest

/-- Feed one key a sequence of timestamps; return the decisions. -/
def runSeq (q : Quota) (s : KeyStore) (key : String) : List Nat → List Decision
  | [] => []
  | t :: ts =>
    let r := check q s key t
    r.1 :: runSeq q r.2 key ts

/-! ### Quota constructors (src/lib.rs lines 51-102) -/

/-- Nanoseconds in one second. -/
def nanosPerSec : Nat := 1000000000

/-- `TryInto<NonZeroU32>` on a nonnegative integer count: fails exactly
when the count is zero or exceeds `u32::MAX`. -/
def tryIntoNonZeroU32 (n : Nat) : Option Nat :=
  if n = 0 ∨ 4294967295 < n then none else some n

/-- `GovernorMiddleware::with_period` (src/lib.rs line 51), via the
`governor` crate's `Quota::with_period`, modelled from the spec: one
request per `d`; `none` iff `d` is the zero duration. -/
def with_period (d : Nat) : Option Quota :=
  if d = 0 then none else some ⟨1, d⟩

/-- `GovernorMiddleware::per_second` (src/lib.rs line 62), via the
`governor` crate's `Quota::per_second`, modelled from the spec: burst
`n` with interval one second divided by `n`; fails iff the count does
not convert to a `NonZeroU32`. -/
def per_second (n : Nat) : Option Quota :=
  (tryIntoNonZeroU32 n).map (fun m => ⟨m, nanosPerSec / m⟩)

/-- `GovernorMiddleware::per_minute` (src/lib.rs line 77). -/
def per_minute (n : Nat) : Option Quota :=
  (tryIntoNonZeroU32 n).map (fun m => ⟨m, 60 * nanosPerSec / m⟩)

/-- `GovernorMiddleware::per_hour` (src/lib.rs line 92). -/
def per_hour (n : Nat) : Option Quota :=
  (tryIntoNonZeroU32 n).map (fun m => ⟨m, 3600 * nanosPerSec / m⟩)

/-! ### The middleware adapter (src/lib.rs lines 107-125) -/

/-- A response as the adapter observes it: status code, headers, body. -/
structure MockResponse where
  status : Nat
  headers : List (String × String)
  body : String
deriving DecidableEq, Repr

/-- Result of one `handle` call: the response returned, whether the
downstream continuation `next.run` was invoked, and the limiter store
afterwards. -/
structure HandleResult where
  response : MockResponse
  ranDownstream : Bool
  store : KeyStore

/-- `Duration::as_secs`: whole seconds, fractional part truncated. -/
def durationAsSecs (w : Nat) : Nat := w / nanosPerSec

/-- The 429 rejection response built in the deny branch of `handle`
(src/lib.rs lines 120-121): status `TooManyRequests` and a
`Retry-After` header holding the wait in whole seconds. -/
def rejectionResponse (w : Nat) : MockResponse :=
  ⟨429, [("Retry-After", toString (durationAsSecs w))], ""⟩

/-- `GovernorMiddleware::handle` (src/lib.rs lines 107-125). `host` is
`req.url().host_str()`; `.unwrap()` on a missing host is the panic,
modelled as `none`. On admit the downstream response is returned
verbatim; on deny the rejection response is returned and downstream is
not invoked. -/
def handle (q : Quota) (s : KeyStore) (host : Option String) (now : Nat)
    (downstream : MockResponse) : Option HandleResult :=
  match host with
  | none => none
  | some key =>
    match check q s key now with
    | (Decision.allow, s2) => some ⟨downstream, true, s2⟩
    | (Decision.deny w, s2) => some ⟨rejectionResponse w, false, s2⟩

/-! ### Helper lemmas -/

/-- A check for one key leaves every other key's state untouched. -/
theorem check_other_key (q : Quota) (s : KeyStore) (key k : String) (now : Nat)
    (hk : k ≠ key) : (check q s key now).2 k = s k := by
  by_cases hc : (s key).getD now - tau q ≤ now
  · simp [check, hc, updateStore, hk]
  · simp [check, hc]

/-- A history of checks touching only keys other than `B` leaves `B`'s
state untouched. -/
theorem runHistory_other_key (q : Quota) (B : String) :
    ∀ (h : List (String × Nat)) (s : KeyStore), (∀ p ∈ h, p.1 ≠ B) →
      runHistory q s h B = s B := by
  intro h
  induction h with
  | nil => intro s _; rfl
  | cons p rest ih =>
    intro s hp
    simp only [runHistory]
    rw [ih _ (fun x hx => hp x (List.mem_cons_of_mem p hx))]
    exact check_other_key q s p.1 B p.2 (Ne.symm (hp p (List.mem_cons_self p rest)))

/-- The decision for a key, and the key's new state, depend only on
that key's stored state. -/
theorem check_agree (q : Quota) (s1 s2 : KeyStore) (key : String) (t : Nat)
    (h : s1 key = s2 key) :
    (check q s1 key t).1 = (check q s2 key t).1 ∧
    (check q s1 key t).2 key = (check q s2 key t).2 key := by
  by_cases hc : (s1 key).getD t - tau q ≤ t
  · have hc2 : (s2 key).getD t - tau q ≤ t := by rw [← h]; exact hc
    simp [check, hc, hc2, updateStore, h]
  · have hc2 : ¬((s2 key).getD t - tau q ≤ t) := by rw [← h]; exact hc
    simp [check, hc, hc2, h]

/-! ### Claim theorems -/

/-- Claim C3: a check that returns Deny leaves the per-key store exactly
as it was, for every key; a denied attempt consumes no capacity, so only
an admitting check mutates state. -/
theorem check_deny_frame (q : Quota) (s : KeyStore) (key : String) (now w : Nat)
    (h : (check q s key now).1 = Decision.deny w) :
    (check q s key now).2 = s := by
  by_cases hc : (s key).getD now - tau q ≤ now
  · simp [check, hc] at h
  · simp [check, hc]

/-- Witness for C3: a concrete denied check leaves the store unchanged. -/
theorem check_deny_frame_witness :
    (check ⟨1, 5⟩ (updateStore emptyStore "k" 100) "k" 0).2 =
      updateStore emptyStore "k" 100 :=
  check_deny_frame ⟨1, 5⟩ (updateStore emptyStore "k" 100) "k" 0 100 rfl

/-- Claim C4: per-key states are independent: after any history of
checks touching only keys other than `B`, the decision for `B` at a
given instant is the same as with no such history. -/
theorem key_independence (q : Quota) (s : KeyStore) (B : String) (t : Nat)
    (hist : List (String × Nat)) (hb : ∀ p ∈ hist, p.1 ≠ B) :
    (check q (runHistory q s hist) B t).1 = (check q s B t).1 :=
  (check_agree q (runHistory q s hist) s B t
    (runHistory_other_key q B hist s hb)).1

/-- Witness for C4: exhausting key "a" does not change the decision for
key "b". -/
theorem key_independence_witness :
    (check ⟨1, 5⟩ (runHistory ⟨1, 5⟩ emptyStore [("a", 0), ("a", 0)]) "b" 0).1 =
      (check ⟨1, 5⟩ emptyStore "b" 0).1 :=
  key_independence ⟨1, 5⟩ emptyStore "b" 0 [("a", 0), ("a", 0)] (by decide)

/-- Claim C8: `check` is total: for every quota, store, key and time it
yields a Decision, either admission or a denial carrying a wait. -/
theorem check_total (q : Quota) (s : KeyStore) (key : String) (now : Nat) :
    (check q s key now).1 = Decision.allow ∨
      ∃ w, (check q s key now).1 = Decision.deny w := by
  cases hd : (check q s key now).1 with
  | allow => exact Or.inl rfl
  | deny w => exact Or.inr ⟨w, rfl⟩

/-- Claim C9: when the request URL has no host, `handle` hits the
`.unwrap()` panic (modelled as `none`) instead of producing a response. -/
theorem handle_aborts_without_host (q : Quota) (s : KeyStore) (now : Nat)
    (d : MockResponse) : handle q s none now d = none := rfl

/-- Claim C10: the limiter is deterministic and a key's decision
sequence is independent of all other keys' states: two stores agreeing
on `key` produce identical decision sequences for any timestamp list. -/
theorem replay_deterministic (q : Quota) (key : String) :
    ∀ (ts : List Nat) (s1 s2 : KeyStore), s1 key = s2 key →
      runSeq q s1 key ts = runSeq q s2 key ts := by
  intro ts
  induction ts with
  | nil => intro s1 s2 _; rfl
  | cons t ts ih =>
    intro s1 s2 h
    have hag := check_agree q s1 s2 key t h
    simp only [runSeq]
    rw [hag.1, ih _ _ hag.2]

/-- Witness for C10: a fresh store and a store tracking an unrelated key
give the same decision sequence. -/
theorem replay_deterministic_witness :
    runSeq ⟨2, 5⟩ (updateStore emptyStore "a" 7) "k" [0, 1, 2] =
      runSeq ⟨2, 5⟩ emptyStore "k" [0, 1, 2] :=
  replay_deterministic ⟨2, 5⟩ "k" [0, 1, 2] (updateStore emptyStore "a" 7)
    emptyStore rfl

/-- Claim C5: when the limiter denies with wait `w`, `handle` leaves the
store as it was, does not run the downstream continuation (the result
does not depend on `d` and `ranDownstream` is `false`), and returns
status 429 with a `Retry-After` header holding `w` in whole seconds,
fractional seconds truncated (`durationAsSecs` is flooring division). -/
theorem deny_rejection (q : Quota) (s : KeyStore) (key : String) (now w : Nat)
    (d : MockResponse) (h : (check q s key now).1 = Decision.deny w) :
    handle q s (some key) now d =
      some ⟨⟨429, [("Retry-After", toString (durationAsSecs w))], ""⟩, false, s⟩ := by
  by_cases hc : (s key).getD now - tau q ≤ now
  · simp [check, hc] at h
  · have hw : (s key).getD now - tau q - now = w := by
      simpa [check, hc] using h
    simp [handle, check, hc, rejectionResponse, hw]

/-- Witness for C5: a concrete denied request yields the 429 response
with truncated Retry-After and an unchanged store. -/
theorem deny_rejection_witness :
    handle ⟨1, 5⟩ (updateStore emptyStore "h" 100) (some "h") 0 ⟨200, [], "ok"⟩ =
      some ⟨⟨429, [("Retry-After", "0")], ""⟩, false, updateStore emptyStore "h" 100⟩ :=
  deny_rejection ⟨1, 5⟩ (updateStore emptyStore "h" 100) "h" 0 100 ⟨200, [], "ok"⟩ rfl

/-- Claim C6: quota validation is entirely at construction time:
`with_period d` is `none` exactly when `d` is zero and otherwise yields
burst 1 with interval `d`; the per-second/minute/hour constructors fail
exactly when the count does not convert to a positive 32-bit integer.
A failure produces `none`: no limiter and no partial state. -/
theorem quota_validation (d n : Nat) :
    (with_period d = none ↔ d = 0) ∧
    (d ≠ 0 → with_period d = some ⟨1, d⟩) ∧
    (per_second n = none ↔ (n = 0 ∨ 4294967295 < n)) ∧
    (per_minute n = none ↔ (n = 0 ∨ 4294967295 < n)) ∧
    (per_hour n = none ↔ (n = 0 ∨ 4294967295 < n)) := by
  refine ⟨?_, ?_, ?_, ?_, ?_⟩
  · by_cases hd : d = 0 <;> simp [with_period, hd]
  · intro hd; simp [with_period, hd]
  · by_cases hn : n = 0 ∨ 4294967295 < n <;>
      simp [per_second, tryIntoNonZeroU32, hn]
  · by_cases hn : n = 0 ∨ 4294967295 < n <;>
      simp [per_minute, tryIntoNonZeroU32, hn]
  · by_cases hn : n = 0 ∨ 4294967295 < n <;>
      simp [per_hour, tryIntoNonZeroU32, hn]

/-- Witness for C6: a one-per-five-nanoseconds quota constructs. -/
theorem quota_validation_witness : with_period 5 = some ⟨1, 5⟩ :=
  (quota_validation 5 3).2.1 (by decide)

/-- Claim C7: when the limiter admits, `handle` runs the downstream
continuation and returns its response verbatim: same status, headers and
body, the store advanced by the admitting check. -/
theorem allow_passthrough (q : Quota) (s : KeyStore) (key : String) (now : Nat)
    (d : MockResponse) (h : (check q s key now).1 = Decision.allow) :
    handle q s (some key) now d = some ⟨d, true, (check q s key now).2⟩ := by
  by_cases hc : (s key).getD now - tau q ≤ now
  · simp [handle, check, hc]
  · simp [check, hc] at h

/-- Witness for C7: a concrete admitted request returns the downstream
response unchanged. -/
theorem allow_passthrough_witness :
    handle ⟨1, 5⟩ emptyStore (some "h") 0 ⟨200, [], "ok"⟩ =
      some ⟨⟨200, [], "ok"⟩, true, (check ⟨1, 5⟩ emptyStore "h" 0).2⟩ :=
  allow_passthrough ⟨1, 5⟩ emptyStore "h" 0 ⟨200, [], "ok"⟩ rfl

/-! ### Burst admission (GCRA arithmetic) -/

/-- Unfolding one step of a repeated run. -/
theorem checkRepeat_succ (q : Quota) (s : KeyStore) (key : String) (now n : Nat) :
    checkRepeat q s key now (n + 1) =
      ((check q s key now).1 ::
         (checkRepeat q (check q s key now).2 key now n).1,
       (checkRepeat q (check q s key now).2 key now n).2) := rfl

/-- A run of length one is a single check. -/
theorem checkRepeat_one (q : Quota) (s : KeyStore) (key : String) (now : Nat) :
    checkRepeat q s key now 1 =
      ([(check q s key now).1], (check q s key now).2) := rfl

/-- Splitting a run of repeated checks into two consecutive runs. -/
theorem checkRepeat_add (q : Quota) (key : String) (now : Nat) :
    ∀ (a b : Nat) (s : KeyStore),
      checkRepeat q s key now (a + b) =
        ((checkRepeat q s key now a).1 ++
           (checkRepeat q (checkRepeat q s key now a).2 key now b).1,
         (checkRepeat q (checkRepeat q s key now a).2 key now b).2) := by
  intro a
  induction a with
  | zero => intro b s; simp [checkRepeat, Nat.zero_add]
  | succ a ih =>
    intro b s
    rw [Nat.succ_add]
    simp only [checkRepeat]
    rw [ih b (check q s key now).2]
    simp

/-- While the stored TAT is within the burst credit, each check at `t0`
admits and advances the stored TAT by one interval. -/
theorem checkRepeat_allow_run (N I t0 : Nat) (key : String) :
    ∀ (k : Nat), ∀ (m : Nat) (s : KeyStore), s key = some (t0 + m * I) →
      m + k ≤ N →
      (checkRepeat ⟨N, I⟩ s key t0 k).1 = List.replicate k Decision.allow ∧
      (checkRepeat ⟨N, I⟩ s key t0 k).2 key = some (t0 + (m + k) * I) := by
  intro k
  induction k with
  | zero => intro m s hs _; exact ⟨rfl, by simpa using hs⟩
  | succ k ih =>
    intro m s hs hmk
    have hmle : m * I ≤ I * (N - 1) := by
      rw [Nat.mul_comm]
      exact Nat.mul_le_mul_left I (by omega)
    have hsucc : t0 + m * I + I = t0 + (m + 1) * I := by
      rw [Nat.succ_mul]
      omega
    have hcheck : check ⟨N, I⟩ s key t0 =
        (Decision.allow, updateStore s key (t0 + (m + 1) * I)) := by
      simp only [check, hs, Option.getD_some, tau]
      rw [if_pos (by omega)]
      rw [max_eq_left (Nat.le_add_right _ _), hsucc]
    simp only [checkRepeat, hcheck]
    have hs2 : updateStore s key (t0 + (m + 1) * I) key = some (t0 + (m + 1) * I) := by
      simp [updateStore]
    have hrec := ih (m + 1) (updateStore s key (t0 + (m + 1) * I)) hs2 (by omega)
    refine ⟨?_, ?_⟩
    · rw [List.replicate_succ]
      exact congrArg (Decision.allow :: ·) hrec.1
    · rw [hrec.2]
      have : m + 1 + k = m + (k + 1) := by omega
      rw [this]

/-- At capacity (stored TAT is `t0 + N * I`), the next check at `t0`
denies with wait exactly `allow_at - now = I`, leaving the store as is. -/
theorem check_deny_at_capacity (N I t0 : Nat) (key : String) (s : KeyStore)
    (hs : s key = some (t0 + N * I)) (hN : 1 ≤ N) (hI : 1 ≤ I) :
    check ⟨N, I⟩ s key t0 = (Decision.deny I, s) := by
  have hma : I * (N - 1) + I = N * I := by
    rw [Nat.mul_comm I (N - 1), ← Nat.succ_mul]
    congr 1
    omega
  simp only [check, hs, Option.getD_some, tau]
  rw [if_neg (by omega)]
  have harg : t0 + N * I - I * (N - 1) - t0 = I := by omega
  rw [harg]

/-- Claim C1: with burst `N ≥ 1` and interval `I ≥ 1`, from a fresh
store, `N` checks for one key at the same instant all admit, and the
`(N+1)`-th at that instant denies with wait exactly `allow_at - now`,
which the GCRA formula makes `I`. -/
theorem burst_admission (N I t0 : Nat) (key : String) (hN : 1 ≤ N) (hI : 1 ≤ I) :
    (checkRepeat ⟨N, I⟩ emptyStore key t0 (N + 1)).1 =
      List.replicate N Decision.allow ++ [Decision.deny I] := by
  obtain ⟨P, rfl⟩ : ∃ P, N = P + 1 := ⟨N - 1, by omega⟩
  have hfirst : check ⟨P + 1, I⟩ emptyStore key t0 =
      (Decision.allow, updateStore emptyStore key (t0 + I)) := by
    simp [check, emptyStore, Nat.sub_le, max_self]
  have hs1 : updateStore emptyStore key (t0 + I) key = some (t0 + 1 * I) := by
    simp [updateStore, Nat.one_mul]
  have hrun := checkRepeat_allow_run (P + 1) I t0 key P 1
    (updateStore emptyStore key (t0 + I)) hs1 (by omega)
  have hcap : (checkRepeat ⟨P + 1, I⟩ (updateStore emptyStore key (t0 + I)) key t0 P).2 key =
      some (t0 + (P + 1) * I) := by
    rw [hrun.2]
    have : 1 + P = P + 1 := by omega
    rw [this]
  have hdeny := check_deny_at_capacity (P + 1) I t0 key
    ((checkRepeat ⟨P + 1, I⟩ (updateStore emptyStore key (t0 + I)) key t0 P).2)
    hcap hN hI
  rw [checkRepeat_succ, hfirst]
  dsimp only
  rw [checkRepeat_add (⟨P + 1, I⟩ : Quota) key t0 P 1
    (updateStore emptyStore key (t0 + I))]
  dsimp only
  rw [hrun.1, checkRepeat_one, hdeny]
  dsimp only
  simp [List.replicate_succ]

/-- Witness for C1: burst 2 per 5ns admits twice at one instant and
denies the third check with wait 5ns. -/
theorem burst_admission_witness :
    (checkRepeat ⟨2, 5⟩ emptyStore "example.api" 100 3).1 =
      List.replicate 2 Decision.allow ++ [Decision.deny 5] :=
  burst_admission 2 5 100 "example.api" (by decide) (by decide)

/-- Claim C2: with burst 1 and interval `I`, two checks for one key
separated by `e` admit then deny with wait `I - e` when `e < I`, and
admit twice when `e ≥ I`. -/
theorem steady_state_spacing (I t0 e : Nat) (key : String) :
    (check ⟨1, I⟩ emptyStore key t0).1 = Decision.allow ∧
    (check ⟨1, I⟩ (check ⟨1, I⟩ emptyStore key t0).2 key (t0 + e)).1 =
      (if e < I then Decision.deny (I - e) else Decision.allow) := by
  have h1 : check ⟨1, I⟩ emptyStore key t0 =
      (Decision.allow, updateStore emptyStore key (t0 + I)) := by
    simp [check, emptyStore, Nat.sub_le, max_self]
  refine ⟨by rw [h1], ?_⟩
  rw [h1]
  have hs : updateStore emptyStore key (t0 + I) key = some (t0 + I) := by
    simp [updateStore]
  by_cases he : e < I
  · rw [if_pos he]
    simp only [check, hs, Option.getD_some, tau]
    rw [if_neg (by simp; omega)]
    have harg : t0 + I - I * (1 - 1) - (t0 + e) = I - e := by simp; omega
    rw [harg]
  · rw [if_neg he]
    simp only [check, hs, Option.getD_some, tau]
    rw [if_pos (by simp; omega)]

end SurfGovernor
